import Mathlib

/-!
Verification development for the model-architecture file `RNN/text_rnn.py` of
the Multi-Label-Text-Classification repository.

The file under verification constructs TensorFlow computation graphs.  We give
a shallow embedding over the real numbers: tensors become (nested) lists of
reals, graph construction plus one execution become pure functions, and the
mutation of TensorFlow variables (the running batch-norm statistics) becomes
explicit state passing of a `BNVars` record.  External library primitives
(`tf.nn.moments`, `tf.nn.batch_normalization`, `tf.nn.sigmoid_cross_entropy_with_logits`,
`tf.nn.l2_loss`, `np.linalg.svd`, random draws) are embedded by their
documented mathematical meaning; randomness and the SVD factors are passed in
as explicit parameters.  Floating-point numbers are modelled as real numbers.
-/

noncomputable section

namespace TextRnnSpec

/-- The logistic sigmoid, the meaning of `tf.sigmoid`. -/
def sigmoid (x : ℝ) : ℝ := 1 / (1 + Real.exp (-x))

/-- Componentwise sum of two vectors (used to accumulate matrix-product rows). -/
def vecAdd (a b : List ℝ) : List ℝ := List.zipWith (fun x y => x + y) a b

/-- A scalar multiple of a vector. -/
def smulVec (c : ℝ) (r : List ℝ) : List ℝ := r.map (fun x => c * x)

/-- The width (second shape component) of a matrix stored as a list of rows. -/
def rowWidth (M : List (List ℝ)) : ℕ :=
  match M with
  | [] => 0
  | r :: _ => r.length

/-- Row vector times matrix: the linear combination of the rows of `M` with the
coefficients of `v`. -/
def vecMat (v : List ℝ) (M : List (List ℝ)) : List ℝ :=
  (List.zipWith smulVec v M).foldr vecAdd (List.replicate (rowWidth M) 0)

/-- Matrix product `tf.matmul`: each row of the batch times the weight matrix. -/
def matMul (X M : List (List ℝ)) : List (List ℝ) := X.map (fun r => vecMat r M)

/-- Elementwise binary operation on two batches (broadcast-free `+`, `*`). -/
def matZip (f : ℝ → ℝ → ℝ) (A B : List (List ℝ)) : List (List ℝ) :=
  List.zipWith (List.zipWith f) A B

/-- Elementwise unary operation on a batch. -/
def matMap (f : ℝ → ℝ) (A : List (List ℝ)) : List (List ℝ) := A.map (List.map f)

/-- Add a bias row vector to every row of a batch (broadcasting `+ bias`). -/
def addRowBias (A : List (List ℝ)) (bias : List ℝ) : List (List ℝ) :=
  A.map (fun r => List.zipWith (fun x y => x + y) r bias)

/-- One of the four equal slices produced by
`array_ops.split(value, num_or_size_splits=4, axis=1)`: slice `k` of a row is
the `k`-th quarter of the row. -/
def splitPart (k : ℕ) (r : List ℝ) : List ℝ :=
  List.take (r.length / 4) (List.drop (k * (r.length / 4)) r)

/-- Column `j` of a batch, as the list of that feature over the batch axis. -/
def col (x : List (List ℝ)) (j : ℕ) : List ℝ := x.map (fun r => r.getD j 0)

/-- The mean of a list of reals. -/
def meanL (l : List ℝ) : ℝ := l.sum / l.length

/-- Per-feature batch mean, the first result of `tf.nn.moments(x, [0])`. -/
def batchMean (x : List (List ℝ)) : List ℝ :=
  (List.range (rowWidth x)).map (fun j => meanL (col x j))

/-- Per-feature batch variance, the second result of `tf.nn.moments(x, [0])`. -/
def batchVar (x : List (List ℝ)) : List ℝ :=
  (List.range (rowWidth x)).map
    (fun j => meanL ((col x j).map (fun a => (a - meanL (col x j)) ^ 2)))

/-- The meaning of `tf.nn.batch_normalization(x, mean, variance, offset, scale, epsilon)`:
`scale * (x - mean) / sqrt(variance + epsilon) + offset`, per feature. -/
def bnNormalize (x : List (List ℝ)) (mean variance offset scale : List ℝ)
    (epsilon : ℝ) : List (List ℝ) :=
  x.map (fun row => (List.range row.length).map (fun j =>
    scale.getD j 0 * (row.getD j 0 - mean.getD j 0) /
      Real.sqrt (variance.getD j 0 + epsilon) + offset.getD j 0))

/-- The four TensorFlow variables living in one `batch_norm` variable scope. -/
structure BNVars where
  scale : List ℝ
  offset : List ℝ
  pop_mean : List ℝ
  pop_var : List ℝ

/-- Default `epsilon` of `batch_norm` (`1e-3`). -/
def bnEpsilon : ℝ := 1 / 1000

/-- Default `decay` of `batch_norm` (`0.999`). -/
def bnDecay : ℝ := 999 / 1000

/-- The `batch_statistics` branch of `batch_norm`: compute batch moments,
update the running estimates by exponential moving average (the `tf.assign`
side effects, sequenced before the result by `tf.control_dependencies`), and
normalize with the batch statistics. -/
def batch_statistics (x : List (List ℝ)) (vars : BNVars) (epsilon decay : ℝ) :
    BNVars × List (List ℝ) :=
  let batch_mean := batchMean x
  let batch_var := batchVar x
  let new_pop_mean :=
    List.zipWith (fun p m => p * decay + m * (1 - decay)) vars.pop_mean batch_mean
  let new_pop_var :=
    List.zipWith (fun p v => p * decay + v * (1 - decay)) vars.pop_var batch_var
  (⟨vars.scale, vars.offset, new_pop_mean, new_pop_var⟩,
    bnNormalize x batch_mean batch_var vars.offset vars.scale epsilon)

/-- The `population_statistics` branch of `batch_norm`: normalize with the
stored population statistics; no variable is assigned. -/
def population_statistics (x : List (List ℝ)) (vars : BNVars) (epsilon : ℝ) :
    BNVars × List (List ℝ) :=
  (vars, bnNormalize x vars.pop_mean vars.pop_var vars.offset vars.scale epsilon)

/-- The `batch_norm` helper.  The Python source sets
`training = tf.constant(is_training)` — a graph constant built from the
construction-time Python boolean — and dispatches between the two branches
with `tf.cond(training, batch_statistics, population_statistics)`.  Since the
predicate is a constant fixed when the graph is built, the branch taken is
determined here by the `is_training` argument; the `name_scope` argument of
the source selects which variable set is used, which is the `vars` argument
here. -/
def batch_norm (x : List (List ℝ)) (vars : BNVars) (is_training : Bool)
    (epsilon decay : ℝ) : BNVars × List (List ℝ) :=
  let training : Bool := is_training
  if training then batch_statistics x vars epsilon decay
  else population_statistics x vars epsilon

/-- `BatchNormLSTMCell.state_size`: an `LSTMStateTuple` of two `num_units` widths. -/
def BatchNormLSTMCell_state_size (num_units : ℕ) : ℕ × ℕ := (num_units, num_units)

/-- `BatchNormLSTMCell.output_size`. -/
def BatchNormLSTMCell_output_size (num_units : ℕ) : ℕ := num_units

/-- `BatchNormLSTMCell.__call__`.  The weight tensors `W_xh`, `W_hh`, `bias`
and the three batch-norm variable sets (scopes `xh`, `hh`, `c`) live in the
enclosing variable scope and are passed in explicitly; the updated batch-norm
variables are returned alongside the cell result.  The result triple is
(per-step output `new_h`, state tuple `(new_c, new_h)`, updated batch-norm
variables). -/
def BatchNormLSTMCell_call (is_training : Bool) (forget_bias : ℝ)
    (activation : ℝ → ℝ) (W_xh W_hh : List (List ℝ)) (bias : List ℝ)
    (vars_xh vars_hh vars_c : BNVars) (inputs : List (List ℝ))
    (state : List (List ℝ) × List (List ℝ)) :
    List (List ℝ) × (List (List ℝ) × List (List ℝ)) × BNVars × BNVars × BNVars :=
  let c := state.1
  let h := state.2
  let xh := matMul inputs W_xh
  let hh := matMul h W_hh
  let bxh := batch_norm xh vars_xh is_training bnEpsilon bnDecay
  let bhh := batch_norm hh vars_hh is_training bnEpsilon bnDecay
  let hidden := addRowBias (matZip (fun a b => a + b) bxh.2 bhh.2) bias
  let i := hidden.map (splitPart 0)
  let j := hidden.map (splitPart 1)
  let f := hidden.map (splitPart 2)
  let o := hidden.map (splitPart 3)
  let new_c := matZip (fun a b => a + b)
      (matZip (fun a b => a * b) c
        (matMap sigmoid (matMap (fun t => t + forget_bias) f)))
      (matZip (fun a b => a * b) (matMap sigmoid i) (matMap activation j))
  let bc := batch_norm new_c vars_c is_training bnEpsilon bnDecay
  let new_h := matZip (fun a b => a * b) (matMap activation bc.2) (matMap sigmoid o)
  (new_h, (new_c, new_h), bxh.1, bhh.1, bc.1)

/-- A TensorFlow variable as created by `tf.get_variable`: its initial value
together with its trainable flag. -/
structure TFVariable where
  value : List ℝ
  trainable : Bool

/-- The four variables created in a fresh `batch_norm` scope. -/
structure BNVarsInit where
  scale : TFVariable
  offset : TFVariable
  pop_mean : TFVariable
  pop_var : TFVariable

/-- First-time variable creation of `batch_norm`:
`scale` uses `tf.constant_initializer(0.1)` and is trainable (the default);
`offset` is created by `tf.get_variable('offset', [size])` with no initial
value given, so its initial value is a draw of the TensorFlow default
(glorot-uniform) random initial-value scheme — the external draw is the
`offset_draw` parameter — and it is trainable;
`pop_mean` starts at zeros and `pop_var` at ones, both with `trainable=False`. -/
def bn_create_vars (size : ℕ) (offset_draw : List ℝ) : BNVarsInit :=
  ⟨⟨List.replicate size (1 / 10), true⟩,
   ⟨offset_draw, true⟩,
   ⟨List.replicate size 0, false⟩,
   ⟨List.replicate size 1, false⟩⟩

/-- The two orthogonal factors returned by `np.linalg.svd(a, full_matrices=False)`
for one random draw `a`.  The factors of a genuine singular value decomposition
have orthonormal columns (`u`) respectively rows (`v`); this property of the
external library is taken as a hypothesis where needed. -/
structure SVDResult where
  u : ℕ → ℕ → ℝ
  v : ℕ → ℕ → ℝ

/-- The `orthogonal(shape)` helper for a 2-D shape `[r, c]` (the only use in
the file): the flattened shape is `(r, c)` itself, and the function returns
`u` when `u.shape == flat_shape` — for `full_matrices=False` the `u` factor is
`r × min r c`, so this happens exactly when `c ≤ r` — and `v` otherwise. -/
def orthogonal (s : SVDResult) (r c : ℕ) : ℕ → ℕ → ℝ :=
  if c ≤ r then s.u else s.v

/-- `bn_lstm_identity_initializer(scale)` applied to a shape `[size, 4*size]`:
start from zeros, write `scale * identity` into columns `size..2*size` (the
candidate block `j`), and fill the three remaining blocks with independent
`orthogonal([size, size])` draws (their SVD results are the parameters
`s1`, `s2`, `s3`). -/
def bn_lstm_identity_init (scale : ℝ) (s1 s2 s3 : SVDResult) (size : ℕ) :
    ℕ → ℕ → ℝ :=
  fun i j =>
    if i < size then
      if j < size then orthogonal s1 size size i j
      else if j < 2 * size then (if i + size = j then scale else 0)
      else if j < 3 * size then orthogonal s2 size size i (j - 2 * size)
      else if j < 4 * size then orthogonal s3 size size i (j - 3 * size)
      else 0
    else 0

/-- The columns of `M` (restricted to the `n × n` block) are orthonormal. -/
def orthonormalCols (M : ℕ → ℕ → ℝ) (n : ℕ) : Prop :=
  ∀ j1 j2, j1 < n → j2 < n →
    (∑ i ∈ Finset.range n, M i j1 * M i j2) = if j1 = j2 then 1 else 0

/-- The meaning of one element of
`tf.nn.sigmoid_cross_entropy_with_logits(labels=z, logits=x)`:
`max(x, 0) - x*z + log(1 + exp(-|x|))`. -/
def sigmoidCE (z x : ℝ) : ℝ :=
  max x 0 - x * z + Real.log (1 + Real.exp (-|x|))

/-- `tf.nn.l2_loss` of a vector: half the sum of squares. -/
def l2Loss (t : List ℝ) : ℝ := (t.map (fun a => a ^ 2)).sum / 2

/-- `tf.nn.l2_loss` of a matrix: half the sum of squares of all entries. -/
def l2LossM (M : List (List ℝ)) : ℝ :=
  ((M.map (fun r => (r.map (fun a => a ^ 2)).sum)).sum) / 2

/-- `tf.nn.xw_plus_b(x, W, b)`: affine projection of each batch row. -/
def xwPlusB (X W : List (List ℝ)) (b : List ℝ) : List (List ℝ) :=
  X.map (fun r => List.zipWith (fun u v => u + v) (vecMat r W) b)

/-- `tf.concat(outputs, axis=2)` for the pair produced by the bidirectional
recurrence: concatenate forward and backward feature vectors per batch element
and per time step. -/
def concatOutputs (fw bw : List (List (List ℝ))) : List (List (List ℝ)) :=
  List.zipWith (List.zipWith (fun a b => a ++ b)) fw bw

/-- Mean of a list of equal-width vectors, per feature
(`tf.reduce_mean(_, axis=1)` applied to one batch element). -/
def meanVecs (vs : List (List ℝ)) : List ℝ :=
  (List.range (rowWidth vs)).map (fun j => meanL (col vs j))

/-- `self.output_rnn_last`: per-batch-element time average of the concatenated
bidirectional outputs. -/
def output_rnn_last (fw bw : List (List (List ℝ))) : List (List ℝ) :=
  (concatOutputs fw bw).map meanVecs

/-- `self.logits`: affine projection of the pooled features.  The outputs of
the two library recurrent cells are external inputs `fw`, `bw` here. -/
def textRNN_logits (fw bw : List (List (List ℝ))) (W : List (List ℝ))
    (b : List ℝ) : List (List ℝ) :=
  xwPlusB (output_rnn_last fw bw) W b

/-- The per-example losses: elementwise sigmoid cross-entropy of labels
against logits, summed over the class axis (`tf.reduce_sum(_, axis=1)`). -/
def textRNN_losses (input_y logits : List (List ℝ)) : List ℝ :=
  List.zipWith (fun yr lr => (List.zipWith sigmoidCE yr lr).sum) input_y logits

/-- `self.loss`: mean of per-example losses plus `l2_reg_lambda` times the
accumulated L2 penalty (which starts at the constant `0.0` and accumulates
the output-projection weight and bias). -/
def textRNN_loss (input_y logits : List (List ℝ)) (l2_reg_lambda : ℝ)
    (W : List (List ℝ)) (b : List ℝ) : ℝ :=
  meanL (textRNN_losses input_y logits) +
    l2_reg_lambda * ((0 : ℝ) + l2LossM W + l2Loss b)

/-- The embedding-table selection of `TextRNN.__init__`.  When no pretrained
embedding is supplied, `self.W` is the random `[vocab_size, embedding_size]`
draw (the external draw is the `randW` parameter).  When one is supplied,
`self.W` is assigned only by the `embedding_type == 0` and
`embedding_type == 1` branches (the `tf.cast` to float32 is the identity in
the real-number model); for any other `embedding_type`, `self.W` is never
assigned, which is `none` here. -/
def textRNN_W (vocab_size embedding_size : ℕ) (embedding_type : ℤ)
    (pretrained_embedding : Option (List (List ℝ))) (randW : List (List ℝ)) :
    Option (List (List ℝ)) :=
  match pretrained_embedding with
  | none => some randW
  | some p =>
    let W0 : Option (List (List ℝ)) := none
    let W1 := if embedding_type = 0 then some p else W0
    let W2 := if embedding_type = 1 then some p else W1
    W2

/-- `tf.nn.embedding_lookup(W, input_x)` for an index matrix. -/
def embeddingLookup (W : List (List ℝ)) (ids : List (List ℕ)) :
    List (List (List ℝ)) :=
  ids.map (fun row => row.map (fun i => W.getD i []))

/-- `self.embedded_chars`: the embedding lookup applied to `self.W`.  When
`self.W` was never assigned, this step is where construction fails (an
`AttributeError` on reading `self.W`), which is `none` here. -/
def textRNN_embedded_chars (vocab_size embedding_size : ℕ)
    (embedding_type : ℤ) (pretrained_embedding : Option (List (List ℝ)))
    (randW : List (List ℝ)) (input_x : List (List ℕ)) :
    Option (List (List (List ℝ))) :=
  Option.map (fun W => embeddingLookup W input_x)
    (textRNN_W vocab_size embedding_size embedding_type pretrained_embedding randW)

/-- Entry of a zipWith in terms of entries of the arguments. -/
theorem getD_zipWith (f : ℝ → ℝ → ℝ) (a b : List ℝ) (j : ℕ)
    (ha : j < a.length) (hb : j < b.length) :
    (List.zipWith f a b).getD j 0 = f (a.getD j 0) (b.getD j 0) := by
  induction a generalizing b j with
  | nil => simp at ha
  | cons x xs ih =>
    cases b with
    | nil => simp at hb
    | cons y ys =>
      cases j with
      | zero => rfl
      | succ j =>
        simp only [List.zipWith_cons_cons, List.getD_cons_succ]
        exact ih ys j (by simpa using ha) (by simpa using hb)

/-- Entry of a tabulated list. -/
theorem getD_range_map (f : ℕ → ℝ) (w j : ℕ) (h : j < w) :
    ((List.range w).map f).getD j 0 = f j := by
  have hl : j < ((List.range w).map f).length := by simpa using h
  rw [List.getD_eq_getElem _ _ hl]
  simp

/-- Elements of a zipWith come from elements of the two argument lists. -/
theorem exists_of_mem_zipWith {α β γ : Type} (f : α → β → γ) (l1 : List α)
    (l2 : List β) : ∀ c ∈ List.zipWith f l1 l2,
      ∃ a b, a ∈ l1 ∧ b ∈ l2 ∧ c = f a b := by
  induction l1 generalizing l2 with
  | nil => simp
  | cons x xs ih =>
    cases l2 with
    | nil => simp
    | cons y ys =>
      intro cc hcc
      simp only [List.zipWith_cons_cons, List.mem_cons] at hcc
      rcases hcc with hcc | hcc
      · exact ⟨x, y, by simp, by simp, hcc⟩
      · rcases ih ys cc hcc with ⟨a, b, ha, hb, he⟩
        exact ⟨a, b, by simp [ha], by simp [hb], he⟩

/-- Folding vector addition over same-width vectors keeps the width. -/
theorem length_foldr_vecAdd (l : List (List ℝ)) (base : List ℝ) (m : ℕ)
    (hl : ∀ r ∈ l, r.length = m) (hb : base.length = m) :
    (l.foldr vecAdd base).length = m := by
  induction l with
  | nil => exact hb
  | cons r rs ih =>
    have h1 : r.length = m := hl r (by simp)
    have h2 := ih (fun s hs => hl s (by simp [hs]))
    simp [vecAdd, h1, h2]

/-- A row-times-matrix product has the width of the matrix, for a well-formed
matrix. -/
theorem length_vecMat (v : List ℝ) (M : List (List ℝ)) (m : ℕ)
    (hM : ∀ r ∈ M, r.length = m) (hM0 : rowWidth M = m) :
    (vecMat v M).length = m := by
  apply length_foldr_vecAdd
  · intro s hs
    rcases exists_of_mem_zipWith smulVec v M s hs with ⟨a, r, _, hr, he⟩
    simp [he, smulVec, hM r hr]
  · simp [hM0]

/-- Shape of a matrix product: batch count preserved, width of the weights. -/
theorem matMul_shape (X M : List (List ℝ)) (m : ℕ)
    (hM : ∀ r ∈ M, r.length = m) (hM0 : rowWidth M = m) :
    (matMul X M).length = X.length ∧ ∀ r ∈ matMul X M, r.length = m := by
  constructor
  · simp [matMul]
  · intro r hr
    rcases List.mem_map.mp hr with ⟨v, _, rfl⟩
    exact length_vecMat v M m hM hM0

/-- Batch normalization is shape preserving. -/
theorem bnNormalize_shape (x : List (List ℝ)) (mean variance offset scale :
    List ℝ) (epsilon : ℝ) (m : ℕ) (hx : ∀ r ∈ x, r.length = m) :
    (bnNormalize x mean variance offset scale epsilon).length = x.length ∧
    ∀ r ∈ bnNormalize x mean variance offset scale epsilon, r.length = m := by
  constructor
  · simp [bnNormalize]
  · intro r hr
    rcases List.mem_map.mp hr with ⟨row, hrow, rfl⟩
    simp [hx row hrow]

/-- Either branch of `batch_norm` is shape preserving. -/
theorem batch_norm_shape (x : List (List ℝ)) (vars : BNVars) (b : Bool)
    (epsilon decay : ℝ) (m : ℕ) (hx : ∀ r ∈ x, r.length = m) :
    (batch_norm x vars b epsilon decay).2.length = x.length ∧
    ∀ r ∈ (batch_norm x vars b epsilon decay).2, r.length = m := by
  cases b
  · exact bnNormalize_shape x _ _ _ _ _ m hx
  · exact bnNormalize_shape x _ _ _ _ _ m hx

/-- Rows of an elementwise binary batch operation keep a common width. -/
theorem matZip_row_lengths (f : ℝ → ℝ → ℝ) (A B : List (List ℝ)) (m : ℕ)
    (hA : ∀ r ∈ A, r.length = m) (hB : ∀ r ∈ B, r.length = m) :
    ∀ r ∈ matZip f A B, r.length = m := by
  intro r hr
  rcases exists_of_mem_zipWith (List.zipWith f) A B r hr with ⟨a, b, ha, hb, he⟩
  simp [he, hA a ha, hB b hb]

/-- Rows of an elementwise unary batch operation keep their width. -/
theorem matMap_row_lengths (f : ℝ → ℝ) (A : List (List ℝ)) (m : ℕ)
    (hA : ∀ r ∈ A, r.length = m) : ∀ r ∈ matMap f A, r.length = m := by
  intro r hr
  rcases List.mem_map.mp hr with ⟨a, ha, rfl⟩
  simp [hA a ha]

/-- Rows after broadcasting a bias of matching width keep their width. -/
theorem addRowBias_row_lengths (A : List (List ℝ)) (bias : List ℝ) (m : ℕ)
    (hA : ∀ r ∈ A, r.length = m) (hb : bias.length = m) :
    ∀ r ∈ addRowBias A bias, r.length = m := by
  intro r hr
  rcases List.mem_map.mp hr with ⟨a, ha, rfl⟩
  simp [hA a ha, hb]

/-- Each of the four split slices of a row of width `4 * m` has width `m`. -/
theorem length_splitPart (k : ℕ) (r : List ℝ) (m : ℕ)
    (h : r.length = 4 * m) (hk : k < 4) : (splitPart k r).length = m := by
  have h4 : r.length / 4 = m := by omega
  unfold splitPart
  rw [h4, List.length_take, List.length_drop, h, inf_eq_left]
  have hkm : k * m ≤ 3 * m := Nat.mul_le_mul_right m (by omega)
  omega

/-- On a row of width `4 * n`, split slice `k` is the consecutive slice of
width `n` starting at offset `k * n`. -/
theorem splitPart_eq_slice (k : ℕ) (r : List ℝ) (n : ℕ)
    (h : r.length = 4 * n) :
    splitPart k r = List.take n (List.drop (k * n) r) := by
  unfold splitPart
  rw [show r.length / 4 = n by omega]

/-- The four split slices of a row of width `4 * m` are its four consecutive
quarters: concatenated in order they give the row back. -/
theorem splitPart_join (r : List ℝ) (m : ℕ) (h : r.length = 4 * m) :
    splitPart 0 r ++ (splitPart 1 r ++ (splitPart 2 r ++ splitPart 3 r)) =
      r := by
  have h4 : r.length / 4 = m := by omega
  simp only [splitPart, h4, Nat.zero_mul, Nat.one_mul, List.drop_zero]
  have e4 : List.take m (List.drop (3 * m) r) = List.drop (3 * m) r := by
    apply List.take_of_length_le
    simp only [List.length_drop, h]
    omega
  have e3 : List.take m (List.drop (2 * m) r) ++ List.drop (3 * m) r =
      List.drop (2 * m) r := by
    have hd := List.take_append_drop m (List.drop (2 * m) r)
    rwa [List.drop_drop, show (2 : ℕ) * m + m = 3 * m by omega] at hd
  have e2 : List.take m (List.drop m r) ++ List.drop (2 * m) r =
      List.drop m r := by
    have hd := List.take_append_drop m (List.drop m r)
    rwa [List.drop_drop, show m + m = 2 * m by omega] at hd
  have e1 : List.take m r ++ List.drop m r = r := List.take_append_drop m r
  rw [e4, e3, e2, e1]

/-- Claim C4: every inference-mode call of `batch_norm` normalizes the input
with the stored population statistics `pop_mean` and `pop_var` and returns all
four scope variables unchanged: no inference-mode call mutates the running
estimates (or any other variable of the scope). -/
theorem C4_inference_frame (x : List (List ℝ)) (vars : BNVars)
    (epsilon decay : ℝ) :
    (batch_norm x vars false epsilon decay).1 = vars ∧
    (batch_norm x vars false epsilon decay).2 =
      bnNormalize x vars.pop_mean vars.pop_var vars.offset vars.scale epsilon :=
  ⟨rfl, rfl⟩

/-- Claim C2 (counterexample): the claim says one and the same constructed
`batch_norm` graph exhibits training behavior under one execution-time flag
value and inference behavior under the other.  In the source the `tf.cond`
predicate is `tf.constant(is_training)`, fixed when the graph is built, so the
graph constructed with `is_training=False` never behaves as the training
branch at any execution-time input at which the two branches genuinely differ
(first conjunct); the second conjunct shows a concrete input where the two
branches do differ, so the first conjunct is not vacuous. -/
theorem C2_counterexample :
    (¬ ∃ (x : List (List ℝ)) (vars : BNVars),
        batch_statistics x vars bnEpsilon bnDecay ≠
          population_statistics x vars bnEpsilon ∧
        batch_norm x vars false bnEpsilon bnDecay =
          batch_statistics x vars bnEpsilon bnDecay) ∧
    batch_statistics [[2], [0]] ⟨[1], [0], [0], [1]⟩ bnEpsilon bnDecay ≠
      population_statistics [[2], [0]] ⟨[1], [0], [0], [1]⟩ bnEpsilon := by
  constructor
  · rintro ⟨x, vars, hne, heq⟩
    exact hne (heq.symm.trans rfl)
  · intro h
    have h2 := congrArg (fun p => p.1.pop_mean) h
    simp only [batch_statistics, population_statistics, batchMean, col, meanL,
      rowWidth, bnDecay, List.range_succ, List.range_zero, List.nil_append,
      List.map_cons, List.map_nil, List.zipWith_cons_cons, List.zipWith_nil_right,
      List.sum_cons, List.sum_nil, List.length_cons, List.length_nil] at h2
    norm_num at h2

/-- Claim C2 (amended): mode selection in `batch_norm` is fixed at graph
construction.  The `tf.cond` predicate is `tf.constant(is_training)` baked
from the construction-time Python boolean, so every constructed graph is
extensionally one fixed branch — the one chosen by the construction-time flag
— for all execution-time inputs. -/
theorem C2_amended_mode_fixed (b : Bool) (epsilon decay : ℝ) :
    (∀ (x : List (List ℝ)) (vars : BNVars),
        batch_norm x vars b epsilon decay =
          batch_statistics x vars epsilon decay) ∨
    (∀ (x : List (List ℝ)) (vars : BNVars),
        batch_norm x vars b epsilon decay =
          population_statistics x vars epsilon) := by
  cases b
  · right
    intro x vars
    rfl
  · left
    intro x vars
    rfl

/-- Claim C7 (counterexample): the claim says `offset` is initialized to zero
in every component.  The source creates `offset` with
`tf.get_variable('offset', [size])` and no initial-value scheme, so it gets
TensorFlow's default glorot-uniform random draw; `1/2` is an admissible draw
for size 1 (the glorot-uniform limit for shape `[1]` is `sqrt 3`), and with
that draw the initial `offset` is not the zero vector. -/
theorem C7_counterexample :
    ¬ ((bn_create_vars 1 [(1 : ℝ) / 2]).offset.value = List.replicate 1 0) := by
  norm_num [bn_create_vars, List.replicate]

/-- Claim C7 (amended): when `batch_norm` first creates its per-feature
variables, `scale` is `0.1` in every component and trainable, `offset` is
trainable but its initial value is the external default-initial-value draw
(not necessarily zero), `pop_mean` is `0` in every component and
non-trainable, and `pop_var` is `1` in every component and non-trainable. -/
theorem C7_amended_init_values (size : ℕ) (offset_draw : List ℝ) :
    (bn_create_vars size offset_draw).scale.value = List.replicate size (1 / 10) ∧
    (bn_create_vars size offset_draw).scale.trainable = true ∧
    (bn_create_vars size offset_draw).offset.value = offset_draw ∧
    (bn_create_vars size offset_draw).offset.trainable = true ∧
    (bn_create_vars size offset_draw).pop_mean.value = List.replicate size 0 ∧
    (bn_create_vars size offset_draw).pop_mean.trainable = false ∧
    (bn_create_vars size offset_draw).pop_var.value = List.replicate size 1 ∧
    (bn_create_vars size offset_draw).pop_var.trainable = false :=
  ⟨rfl, rfl, rfl, rfl, rfl, rfl, rfl, rfl⟩

/-- Claim C9 (counterexample): the claim says construction fails immediately
when a supplied pretrained embedding disagrees with the configured
`[vocab_size, embedding_size]`.  Supplying the `1 × 1` array `[[1]]` with
configured shape `[2, 2]` and `embedding_type = 0` succeeds: the embedding
table is assigned the mismatched array as-is, and no construction-time check
rejects it. -/
theorem C9_counterexample :
    textRNN_W 2 2 0 (some [[(1 : ℝ)]]) [[0, 0], [0, 0]] = some [[(1 : ℝ)]] ∧
    ¬ ([[(1 : ℝ)]].length = 2 ∧ rowWidth [[(1 : ℝ)]] = 2) := by
  constructor
  · rfl
  · intro h
    simp [rowWidth] at h

/-- Claim C9 (amended): `TextRNN.__init__` performs no shape validation on a
supplied pretrained embedding: for `embedding_type` 0 or 1 the construction
accepts any supplied array regardless of its shape and uses it as the
embedding table unchanged; shape mismatches are not surfaced at
graph-construction time. -/
theorem C9_amended_no_shape_check (vocab_size embedding_size : ℕ)
    (embedding_type : ℤ) (p randW : List (List ℝ))
    (h : embedding_type = 0 ∨ embedding_type = 1) :
    textRNN_W vocab_size embedding_size embedding_type (some p) randW = some p := by
  rcases h with h | h <;> subst h <;> rfl

/-- Witness for the amended claim C9 at a concrete mismatched input. -/
theorem C9_amended_no_shape_check_witness :
    ((0 : ℤ) = 0 ∨ (0 : ℤ) = 1) ∧
    textRNN_W 2 2 0 (some [[(1 : ℝ)]]) [[0, 0], [0, 0]] = some [[(1 : ℝ)]] :=
  ⟨Or.inl rfl,
    C9_amended_no_shape_check 2 2 0 [[(1 : ℝ)]] [[0, 0], [0, 0]] (Or.inl rfl)⟩

/-- Claim C10: constructing `TextRNN` with a supplied pretrained embedding and
an `embedding_type` other than 0 or 1 never assigns `self.W`, so construction
fails at the embedding-lookup step (modelled as `none`): no embedding mode is
defined for such configurations. -/
theorem C10_undefined_embedding_type (vocab_size embedding_size : ℕ)
    (embedding_type : ℤ) (p randW : List (List ℝ)) (input_x : List (List ℕ))
    (h0 : embedding_type ≠ 0) (h1 : embedding_type ≠ 1) :
    textRNN_embedded_chars vocab_size embedding_size embedding_type (some p)
      randW input_x = none := by
  simp [textRNN_embedded_chars, textRNN_W, h0, h1]

/-- Witness for claim C10 at the concrete configuration `embedding_type = 2`. -/
theorem C10_undefined_embedding_type_witness :
    ((2 : ℤ) ≠ 0) ∧ ((2 : ℤ) ≠ 1) ∧
    textRNN_embedded_chars 2 2 2 (some [[(1 : ℝ)]]) [[0, 0], [0, 0]] [[0]] =
      none :=
  ⟨by decide, by decide,
    C10_undefined_embedding_type 2 2 2 [[(1 : ℝ)]] [[0, 0], [0, 0]] [[0]]
      (by decide) (by decide)⟩

/-- Claim C3: a training-mode call of `batch_norm` on a batch with per-feature
mean `m` and variance `v` updates the running estimates exactly to
`pop_mean * decay + m * (1 - decay)` and `pop_var * decay + v * (1 - decay)`,
the update is reflected in the returned state (the side effect is sequenced
before the result by `tf.control_dependencies`), and the returned tensor is
normalized with the batch statistics `m`, `v` — not the updated population
estimates — with `epsilon` added to the variance; the defaults are
`decay = 0.999` and `epsilon = 1e-3`. -/
theorem C3_training_update (x : List (List ℝ)) (vars : BNVars) (w : ℕ)
    (hw : rowWidth x = w) (hpm : vars.pop_mean.length = w)
    (hpv : vars.pop_var.length = w) :
    (∀ j, j < w →
      (batch_norm x vars true bnEpsilon bnDecay).1.pop_mean.getD j 0 =
        vars.pop_mean.getD j 0 * bnDecay + meanL (col x j) * (1 - bnDecay)) ∧
    (∀ j, j < w →
      (batch_norm x vars true bnEpsilon bnDecay).1.pop_var.getD j 0 =
        vars.pop_var.getD j 0 * bnDecay +
          meanL ((col x j).map (fun a => (a - meanL (col x j)) ^ 2)) *
            (1 - bnDecay)) ∧
    (batch_norm x vars true bnEpsilon bnDecay).1.scale = vars.scale ∧
    (batch_norm x vars true bnEpsilon bnDecay).1.offset = vars.offset ∧
    (batch_norm x vars true bnEpsilon bnDecay).2 =
      bnNormalize x (batchMean x) (batchVar x) vars.offset vars.scale
        bnEpsilon ∧
    bnDecay = 999 / 1000 ∧ bnEpsilon = 1 / 1000 := by
  refine ⟨?_, ?_, rfl, rfl, rfl, rfl, rfl⟩
  · intro j hj
    have h1 : j < vars.pop_mean.length := by omega
    have h2 : j < (batchMean x).length := by simp [batchMean, hw, hj]
    show (List.zipWith (fun p m => p * bnDecay + m * (1 - bnDecay))
        vars.pop_mean (batchMean x)).getD j 0 = _
    rw [getD_zipWith _ _ _ _ h1 h2]
    have h3 : (batchMean x).getD j 0 = meanL (col x j) := by
      rw [batchMean, hw]
      exact getD_range_map _ _ _ hj
    rw [h3]
  · intro j hj
    have h1 : j < vars.pop_var.length := by omega
    have h2 : j < (batchVar x).length := by simp [batchVar, hw, hj]
    show (List.zipWith (fun p v => p * bnDecay + v * (1 - bnDecay))
        vars.pop_var (batchVar x)).getD j 0 = _
    rw [getD_zipWith _ _ _ _ h1 h2]
    have h3 : (batchVar x).getD j 0 =
        meanL ((col x j).map (fun a => (a - meanL (col x j)) ^ 2)) := by
      rw [batchVar, hw]
      exact getD_range_map _ _ _ hj
    rw [h3]

/-- Witness for claim C3 at the concrete batch `[[2], [0]]` (feature mean 1,
feature variance 1) with population state `pop_mean = [0]`, `pop_var = [1]`. -/
theorem C3_training_update_witness :
    (rowWidth [[(2 : ℝ)], [0]] = 1 ∧
      (BNVars.mk [1] [0] [0] [1]).pop_mean.length = 1 ∧
      (BNVars.mk [1] [0] [0] [1]).pop_var.length = 1) ∧
    ((∀ j, j < 1 →
      (batch_norm [[(2 : ℝ)], [0]] (BNVars.mk [1] [0] [0] [1]) true bnEpsilon
          bnDecay).1.pop_mean.getD j 0 =
        (BNVars.mk [1] [0] [0] [1]).pop_mean.getD j 0 * bnDecay +
          meanL (col [[(2 : ℝ)], [0]] j) * (1 - bnDecay)) ∧
    (∀ j, j < 1 →
      (batch_norm [[(2 : ℝ)], [0]] (BNVars.mk [1] [0] [0] [1]) true bnEpsilon
          bnDecay).1.pop_var.getD j 0 =
        (BNVars.mk [1] [0] [0] [1]).pop_var.getD j 0 * bnDecay +
          meanL ((col [[(2 : ℝ)], [0]] j).map
            (fun a => (a - meanL (col [[(2 : ℝ)], [0]] j)) ^ 2)) *
            (1 - bnDecay)) ∧
    (batch_norm [[(2 : ℝ)], [0]] (BNVars.mk [1] [0] [0] [1]) true bnEpsilon
        bnDecay).1.scale = (BNVars.mk [1] [0] [0] [1]).scale ∧
    (batch_norm [[(2 : ℝ)], [0]] (BNVars.mk [1] [0] [0] [1]) true bnEpsilon
        bnDecay).1.offset = (BNVars.mk [1] [0] [0] [1]).offset ∧
    (batch_norm [[(2 : ℝ)], [0]] (BNVars.mk [1] [0] [0] [1]) true bnEpsilon
        bnDecay).2 =
      bnNormalize [[(2 : ℝ)], [0]] (batchMean [[(2 : ℝ)], [0]])
        (batchVar [[(2 : ℝ)], [0]]) (BNVars.mk [1] [0] [0] [1]).offset
        (BNVars.mk [1] [0] [0] [1]).scale bnEpsilon ∧
    bnDecay = 999 / 1000 ∧ bnEpsilon = 1 / 1000) :=
  ⟨⟨rfl, rfl, rfl⟩,
    C3_training_update [[(2 : ℝ)], [0]] (BNVars.mk [1] [0] [0] [1]) 1 rfl rfl rfl⟩

/-- Claim C6: the identity-biased initial-value scheme on shape
`[n, 4*n]` puts `scale * identity` exactly into the candidate block (columns
`n..2*n`), and fills the other three blocks (input, forget, output gates)
with the three independently drawn `orthogonal([n, n])` matrices — the `u`
factors of the three SVD calls — which are orthonormal whenever the external
SVD routine returns orthonormal factors (its documented property). -/
theorem C6_identity_init_blocks (n : ℕ) (scale : ℝ) (s1 s2 s3 : SVDResult)
    (h1 : orthonormalCols s1.u n) (h2 : orthonormalCols s2.u n)
    (h3 : orthonormalCols s3.u n) :
    (∀ i k, i < n → k < n →
      bn_lstm_identity_init scale s1 s2 s3 n i (n + k) =
        if i = k then scale else 0) ∧
    (∀ i k, i < n → k < n →
      bn_lstm_identity_init scale s1 s2 s3 n i k = s1.u i k) ∧
    (∀ i k, i < n → k < n →
      bn_lstm_identity_init scale s1 s2 s3 n i (2 * n + k) = s2.u i k) ∧
    (∀ i k, i < n → k < n →
      bn_lstm_identity_init scale s1 s2 s3 n i (3 * n + k) = s3.u i k) ∧
    orthonormalCols (fun i k => bn_lstm_identity_init scale s1 s2 s3 n i k) n ∧
    orthonormalCols
      (fun i k => bn_lstm_identity_init scale s1 s2 s3 n i (2 * n + k)) n ∧
    orthonormalCols
      (fun i k => bn_lstm_identity_init scale s1 s2 s3 n i (3 * n + k)) n := by
  have horth : orthogonal s1 n n = s1.u ∧ orthogonal s2 n n = s2.u ∧
      orthogonal s3 n n = s3.u := by
    refine ⟨?_, ?_, ?_⟩ <;> simp [orthogonal]
  have hid : ∀ i k, i < n → k < n →
      bn_lstm_identity_init scale s1 s2 s3 n i (n + k) =
        if i = k then scale else 0 := by
    intro i k hi hk
    unfold bn_lstm_identity_init
    rw [if_pos hi, if_neg (by omega), if_pos (by omega)]
    by_cases h : i = k
    · subst h
      rw [if_pos (by omega), if_pos rfl]
    · rw [if_neg (by omega), if_neg h]
  have hb1 : ∀ i k, i < n → k < n →
      bn_lstm_identity_init scale s1 s2 s3 n i k = s1.u i k := by
    intro i k hi hk
    unfold bn_lstm_identity_init
    rw [if_pos hi, if_pos hk, horth.1]
  have hb2 : ∀ i k, i < n → k < n →
      bn_lstm_identity_init scale s1 s2 s3 n i (2 * n + k) = s2.u i k := by
    intro i k hi hk
    unfold bn_lstm_identity_init
    rw [if_pos hi, if_neg (by omega), if_neg (by omega), if_pos (by omega),
      horth.2.1]
    congr 1
    omega
  have hb3 : ∀ i k, i < n → k < n →
      bn_lstm_identity_init scale s1 s2 s3 n i (3 * n + k) = s3.u i k := by
    intro i k hi hk
    unfold bn_lstm_identity_init
    rw [if_pos hi, if_neg (by omega), if_neg (by omega), if_neg (by omega),
      if_pos (by omega), horth.2.2]
    congr 1
    omega
  have key : ∀ (M u : ℕ → ℕ → ℝ),
      (∀ i k, i < n → k < n → M i k = u i k) → orthonormalCols u n →
        orthonormalCols M n := by
    intro M u hMu hu j1 j2 hj1 hj2
    rw [← hu j1 j2 hj1 hj2]
    apply Finset.sum_congr rfl
    intro i hi
    rw [hMu i j1 (Finset.mem_range.mp hi) hj1,
      hMu i j2 (Finset.mem_range.mp hi) hj2]
  exact ⟨hid, hb1, hb2, hb3, key _ _ hb1 h1,
    key _ _ (fun i k hi hk => hb2 i k hi hk) h2,
    key _ _ (fun i k hi hk => hb3 i k hi hk) h3⟩

/-- Witness for claim C6 at size 1, the default scale 0.95, and the constant-1
one-by-one SVD factors (which are orthonormal at size 1). -/
theorem C6_identity_init_blocks_witness :
    (orthonormalCols (SVDResult.mk (fun _ _ => 1) (fun _ _ => 1)).u 1 ∧
      orthonormalCols (SVDResult.mk (fun _ _ => 1) (fun _ _ => 1)).u 1 ∧
      orthonormalCols (SVDResult.mk (fun _ _ => 1) (fun _ _ => 1)).u 1) ∧
    ((∀ i k, i < 1 → k < 1 →
      bn_lstm_identity_init (19 / 20) (SVDResult.mk (fun _ _ => 1) (fun _ _ => 1))
        (SVDResult.mk (fun _ _ => 1) (fun _ _ => 1))
        (SVDResult.mk (fun _ _ => 1) (fun _ _ => 1)) 1 i (1 + k) =
        if i = k then (19 / 20 : ℝ) else 0) ∧
    (∀ i k, i < 1 → k < 1 →
      bn_lstm_identity_init (19 / 20) (SVDResult.mk (fun _ _ => 1) (fun _ _ => 1))
        (SVDResult.mk (fun _ _ => 1) (fun _ _ => 1))
        (SVDResult.mk (fun _ _ => 1) (fun _ _ => 1)) 1 i k =
        (SVDResult.mk (fun _ _ => 1) (fun _ _ => 1)).u i k) ∧
    (∀ i k, i < 1 → k < 1 →
      bn_lstm_identity_init (19 / 20) (SVDResult.mk (fun _ _ => 1) (fun _ _ => 1))
        (SVDResult.mk (fun _ _ => 1) (fun _ _ => 1))
        (SVDResult.mk (fun _ _ => 1) (fun _ _ => 1)) 1 i (2 * 1 + k) =
        (SVDResult.mk (fun _ _ => 1) (fun _ _ => 1)).u i k) ∧
    (∀ i k, i < 1 → k < 1 →
      bn_lstm_identity_init (19 / 20) (SVDResult.mk (fun _ _ => 1) (fun _ _ => 1))
        (SVDResult.mk (fun _ _ => 1) (fun _ _ => 1))
        (SVDResult.mk (fun _ _ => 1) (fun _ _ => 1)) 1 i (3 * 1 + k) =
        (SVDResult.mk (fun _ _ => 1) (fun _ _ => 1)).u i k) ∧
    orthonormalCols
      (fun i k => bn_lstm_identity_init (19 / 20)
        (SVDResult.mk (fun _ _ => 1) (fun _ _ => 1))
        (SVDResult.mk (fun _ _ => 1) (fun _ _ => 1))
        (SVDResult.mk (fun _ _ => 1) (fun _ _ => 1)) 1 i k) 1 ∧
    orthonormalCols
      (fun i k => bn_lstm_identity_init (19 / 20)
        (SVDResult.mk (fun _ _ => 1) (fun _ _ => 1))
        (SVDResult.mk (fun _ _ => 1) (fun _ _ => 1))
        (SVDResult.mk (fun _ _ => 1) (fun _ _ => 1)) 1 i (2 * 1 + k)) 1 ∧
    orthonormalCols
      (fun i k => bn_lstm_identity_init (19 / 20)
        (SVDResult.mk (fun _ _ => 1) (fun _ _ => 1))
        (SVDResult.mk (fun _ _ => 1) (fun _ _ => 1))
        (SVDResult.mk (fun _ _ => 1) (fun _ _ => 1)) 1 i (3 * 1 + k)) 1) := by
  have hone : orthonormalCols (SVDResult.mk (fun _ _ => 1) (fun _ _ => 1)).u 1 := by
    intro j1 j2 hj1 hj2
    have e1 : j1 = 0 := by omega
    have e2 : j2 = 0 := by omega
    subst e1
    subst e2
    simp
  exact ⟨⟨hone, hone, hone⟩,
    C6_identity_init_blocks 1 (19 / 20) _ _ _ hone hone hone⟩

/-- Claim C5: width invariants of a valid `BatchNormLSTMCell` invocation
(`num_units = n > 0`, statically known input width): the per-step output and
both components of the returned state have width `n`; the intermediate
pre-activation tensor `hidden` (named `H` by its defining equation `hH`) has
width exactly `4 * n` and is split into exactly four equal contiguous slices
in the fixed order `i`, `j`, `f`, `o` (slices `0..3`), each of width `n`,
which concatenated in order give `hidden` back; and `state_size` is the pair
`(n, n)` with `output_size` `n`. -/
theorem C5_width_invariants (is_training : Bool) (forget_bias : ℝ)
    (activation : ℝ → ℝ) (W_xh W_hh : List (List ℝ)) (bias : List ℝ)
    (vars_xh vars_hh vars_c : BNVars) (inputs c hprev : List (List ℝ))
    (n input_size : ℕ)
    (R : List (List ℝ) × (List (List ℝ) × List (List ℝ)) ×
      BNVars × BNVars × BNVars)
    (H : List (List ℝ))
    (hn : 0 < n)
    (hWxh : ∀ r ∈ W_xh, r.length = 4 * n) (hWxh0 : rowWidth W_xh = 4 * n)
    (hWxhL : W_xh.length = input_size)
    (hWhh : ∀ r ∈ W_hh, r.length = 4 * n) (hWhh0 : rowWidth W_hh = 4 * n)
    (hbias : bias.length = 4 * n)
    (hinp : ∀ r ∈ inputs, r.length = input_size)
    (hc : ∀ r ∈ c, r.length = n) (hhp : ∀ r ∈ hprev, r.length = n)
    (hR : R = BatchNormLSTMCell_call is_training forget_bias activation
      W_xh W_hh bias vars_xh vars_hh vars_c inputs (c, hprev))
    (hH : H = addRowBias (matZip (fun a b => a + b)
      (batch_norm (matMul inputs W_xh) vars_xh is_training bnEpsilon bnDecay).2
      (batch_norm (matMul hprev W_hh) vars_hh is_training bnEpsilon
        bnDecay).2) bias) :
    (∀ r ∈ R.1, r.length = n) ∧
    (∀ r ∈ R.2.1.1, r.length = n) ∧
    (∀ r ∈ R.2.1.2, r.length = n) ∧
    (∀ r ∈ H, r.length = 4 * n) ∧
    (∀ k, k < 4 → ∀ r ∈ H.map (splitPart k), r.length = n) ∧
    (∀ r ∈ H,
      splitPart 0 r ++ (splitPart 1 r ++ (splitPart 2 r ++ splitPart 3 r)) =
        r) ∧
    BatchNormLSTMCell_state_size n = (n, n) ∧
    BatchNormLSTMCell_output_size n = n := by
  subst hR
  subst hH
  have hxh : ∀ r ∈ matMul inputs W_xh, r.length = 4 * n :=
    (matMul_shape inputs W_xh (4 * n) hWxh hWxh0).2
  have hhh : ∀ r ∈ matMul hprev W_hh, r.length = 4 * n :=
    (matMul_shape hprev W_hh (4 * n) hWhh hWhh0).2
  have hbnx : ∀ r ∈ (batch_norm (matMul inputs W_xh) vars_xh is_training
      bnEpsilon bnDecay).2, r.length = 4 * n :=
    (batch_norm_shape _ _ _ _ _ _ hxh).2
  have hbnh : ∀ r ∈ (batch_norm (matMul hprev W_hh) vars_hh is_training
      bnEpsilon bnDecay).2, r.length = 4 * n :=
    (batch_norm_shape _ _ _ _ _ _ hhh).2
  have hHrows : ∀ r ∈ addRowBias (matZip (fun a b => a + b)
      (batch_norm (matMul inputs W_xh) vars_xh is_training bnEpsilon bnDecay).2
      (batch_norm (matMul hprev W_hh) vars_hh is_training bnEpsilon
        bnDecay).2) bias, r.length = 4 * n :=
    addRowBias_row_lengths _ _ _
      (matZip_row_lengths _ _ _ _ hbnx hbnh) hbias
  have hsplit : ∀ k, k < 4 → ∀ r ∈ (addRowBias (matZip (fun a b => a + b)
      (batch_norm (matMul inputs W_xh) vars_xh is_training bnEpsilon bnDecay).2
      (batch_norm (matMul hprev W_hh) vars_hh is_training bnEpsilon
        bnDecay).2) bias).map (splitPart k), r.length = n := by
    intro k hk r hr
    rcases List.mem_map.mp hr with ⟨row, hrow, rfl⟩
    exact length_splitPart k row n (hHrows row hrow) hk
  have hnewc : ∀ r ∈ matZip (fun a b => a + b)
      (matZip (fun a b => a * b) c
        (matMap sigmoid (matMap (fun t => t + forget_bias)
          ((addRowBias (matZip (fun a b => a + b)
            (batch_norm (matMul inputs W_xh) vars_xh is_training bnEpsilon
              bnDecay).2
            (batch_norm (matMul hprev W_hh) vars_hh is_training bnEpsilon
              bnDecay).2) bias).map (splitPart 2)))))
      (matZip (fun a b => a * b)
        (matMap sigmoid ((addRowBias (matZip (fun a b => a + b)
          (batch_norm (matMul inputs W_xh) vars_xh is_training bnEpsilon
            bnDecay).2
          (batch_norm (matMul hprev W_hh) vars_hh is_training bnEpsilon
            bnDecay).2) bias).map (splitPart 0)))
        (matMap activation ((addRowBias (matZip (fun a b => a + b)
          (batch_norm (matMul inputs W_xh) vars_xh is_training bnEpsilon
            bnDecay).2
          (batch_norm (matMul hprev W_hh) vars_hh is_training bnEpsilon
            bnDecay).2) bias).map (splitPart 1)))), r.length = n := by
    apply matZip_row_lengths
    · apply matZip_row_lengths _ _ _ _ hc
      apply matMap_row_lengths
      apply matMap_row_lengths
      exact hsplit 2 (by omega)
    · apply matZip_row_lengths
      · apply matMap_row_lengths
        exact hsplit 0 (by omega)
      · apply matMap_row_lengths
        exact hsplit 1 (by omega)
  refine ⟨?_, ?_, ?_, hHrows, hsplit, ?_, rfl, rfl⟩
  · simp only [BatchNormLSTMCell_call]
    apply matZip_row_lengths
    · apply matMap_row_lengths
      exact (batch_norm_shape _ vars_c is_training bnEpsilon bnDecay n
        hnewc).2
    · apply matMap_row_lengths
      exact hsplit 3 (by omega)
  · simp only [BatchNormLSTMCell_call]
    exact hnewc
  · simp only [BatchNormLSTMCell_call]
    apply matZip_row_lengths
    · apply matMap_row_lengths
      exact (batch_norm_shape _ vars_c is_training bnEpsilon bnDecay n
        hnewc).2
    · apply matMap_row_lengths
      exact hsplit 3 (by omega)
  · intro r hr
    exact splitPart_join r n (hHrows r hr)

/-- Claim C1: with `hidden = BN(x * W_xh) + BN(h * W_hh) + bias` (named `H`
by its defining equation `hH`) and `i`, `j`, `f`, `o` the four equal
consecutive width-`n` slices of `hidden` in that order, the cell call
computes `new_c = c * sigmoid(f + forget_bias) + sigmoid(i) * activation(j)`
(the first returned state component), `new_h = activation(BN(new_c)) *
sigmoid(o)` (the per-step output), and returns that `new_h` both as the
per-step output and as the hidden half of the returned state pair; `sigmoid`
is the logistic sigmoid and `activation` the configured activation. -/
theorem C1_cell_equations (is_training : Bool) (forget_bias : ℝ)
    (activation : ℝ → ℝ) (W_xh W_hh : List (List ℝ)) (bias : List ℝ)
    (vars_xh vars_hh vars_c : BNVars) (inputs c hprev : List (List ℝ))
    (n : ℕ)
    (R : List (List ℝ) × (List (List ℝ) × List (List ℝ)) ×
      BNVars × BNVars × BNVars)
    (H : List (List ℝ))
    (hWxh : ∀ r ∈ W_xh, r.length = 4 * n) (hWxh0 : rowWidth W_xh = 4 * n)
    (hWhh : ∀ r ∈ W_hh, r.length = 4 * n) (hWhh0 : rowWidth W_hh = 4 * n)
    (hbias : bias.length = 4 * n)
    (hR : R = BatchNormLSTMCell_call is_training forget_bias activation
      W_xh W_hh bias vars_xh vars_hh vars_c inputs (c, hprev))
    (hH : H = addRowBias (matZip (fun a b => a + b)
      (batch_norm (matMul inputs W_xh) vars_xh is_training bnEpsilon bnDecay).2
      (batch_norm (matMul hprev W_hh) vars_hh is_training bnEpsilon
        bnDecay).2) bias) :
    R.2.1.1 = matZip (fun a b => a + b)
      (matZip (fun a b => a * b) c
        (matMap sigmoid (matMap (fun t => t + forget_bias)
          (H.map (fun r => List.take n (List.drop (2 * n) r))))))
      (matZip (fun a b => a * b)
        (matMap sigmoid (H.map (fun r => List.take n r)))
        (matMap activation (H.map (fun r => List.take n (List.drop n r))))) ∧
    R.1 = matZip (fun a b => a * b)
      (matMap activation
        (batch_norm R.2.1.1 vars_c is_training bnEpsilon bnDecay).2)
      (matMap sigmoid (H.map (fun r => List.take n (List.drop (3 * n) r)))) ∧
    R.2.1.2 = R.1 := by
  subst hR
  have hHrows : ∀ r ∈ H, r.length = 4 * n := by
    rw [hH]
    exact addRowBias_row_lengths _ _ _
      (matZip_row_lengths _ _ _ _
        (batch_norm_shape _ _ _ _ _ _
          (matMul_shape inputs W_xh (4 * n) hWxh hWxh0).2).2
        (batch_norm_shape _ _ _ _ _ _
          (matMul_shape hprev W_hh (4 * n) hWhh hWhh0).2).2)
      hbias
  have e0 : H.map (splitPart 0) = H.map (fun r => List.take n r) :=
    List.map_congr_left (fun r hr => by
      rw [splitPart_eq_slice 0 r n (hHrows r hr)]
      simp)
  have e1 : H.map (splitPart 1) =
      H.map (fun r => List.take n (List.drop n r)) :=
    List.map_congr_left (fun r hr => by
      rw [splitPart_eq_slice 1 r n (hHrows r hr)]
      simp)
  have e2 : H.map (splitPart 2) =
      H.map (fun r => List.take n (List.drop (2 * n) r)) :=
    List.map_congr_left (fun r hr =>
      splitPart_eq_slice 2 r n (hHrows r hr))
  have e3 : H.map (splitPart 3) =
      H.map (fun r => List.take n (List.drop (3 * n) r)) :=
    List.map_congr_left (fun r hr =>
      splitPart_eq_slice 3 r n (hHrows r hr))
  refine ⟨?_, ?_, ?_⟩
  · simp only [BatchNormLSTMCell_call]
    rw [← hH, e0, e1, e2]
  · simp only [BatchNormLSTMCell_call]
    rw [← hH, e0, e1, e2, e3]
  · simp only [BatchNormLSTMCell_call]

/-- One sigmoid cross-entropy term is non-negative for a label in [0, 1]. -/
theorem sigmoidCE_nonneg (z x : ℝ) (h0 : 0 ≤ z) (h1 : z ≤ 1) :
    0 ≤ sigmoidCE z x := by
  unfold sigmoidCE
  have hlog : 0 ≤ Real.log (1 + Real.exp (-|x|)) := by
    apply Real.log_nonneg
    have := Real.exp_pos (-|x|)
    linarith
  have hmax : x * z ≤ max x 0 := by
    rcases le_or_lt 0 x with hx | hx
    · have h2 : x * z ≤ x * 1 := mul_le_mul_of_nonneg_left h1 hx
      have h3 : x ≤ max x 0 := le_max_left x 0
      linarith
    · have h2 : x * z ≤ 0 := mul_nonpos_of_nonpos_of_nonneg (le_of_lt hx) h0
      exact h2.trans (le_max_right x 0)
  linarith

/-- A class-axis sum of sigmoid cross-entropy terms is non-negative for
labels in [0, 1]. -/
theorem sum_zipWith_sigmoidCE_nonneg (yr lr : List ℝ)
    (hy : ∀ a ∈ yr, 0 ≤ a ∧ a ≤ 1) :
    0 ≤ (List.zipWith sigmoidCE yr lr).sum := by
  induction yr generalizing lr with
  | nil => simp
  | cons a as ih =>
    cases lr with
    | nil => simp
    | cons bb bs =>
      simp only [List.zipWith_cons_cons, List.sum_cons]
      have h1 := hy a (by simp)
      have h2 := ih bs (fun t ht => hy t (by simp [ht]))
      have h3 := sigmoidCE_nonneg a bb h1.1 h1.2
      linarith

/-- Every per-example loss is non-negative for labels in [0, 1]. -/
theorem textRNN_losses_nonneg (y L : List (List ℝ))
    (hy : ∀ row ∈ y, ∀ a ∈ row, 0 ≤ a ∧ a ≤ 1) :
    ∀ v ∈ textRNN_losses y L, 0 ≤ v := by
  intro v hv
  rcases exists_of_mem_zipWith _ y L v hv with ⟨yr, lr, hyr, _, rfl⟩
  exact sum_zipWith_sigmoidCE_nonneg yr lr (hy yr hyr)

/-- The mean of a list of non-negative reals is non-negative. -/
theorem meanL_nonneg (l : List ℝ) (h : ∀ v ∈ l, 0 ≤ v) : 0 ≤ meanL l := by
  unfold meanL
  exact div_nonneg (List.sum_nonneg h) (by positivity)

/-- The L2 penalty of a vector is non-negative. -/
theorem l2Loss_nonneg (t : List ℝ) : 0 ≤ l2Loss t := by
  unfold l2Loss
  apply div_nonneg _ (by norm_num)
  apply List.sum_nonneg
  intro v hv
  rcases List.mem_map.mp hv with ⟨a, _, rfl⟩
  positivity

/-- The L2 penalty of a matrix is non-negative. -/
theorem l2LossM_nonneg (M : List (List ℝ)) : 0 ≤ l2LossM M := by
  unfold l2LossM
  apply div_nonneg _ (by norm_num)
  apply List.sum_nonneg
  intro v hv
  rcases List.mem_map.mp hv with ⟨r, _, rfl⟩
  apply List.sum_nonneg
  intro w hw
  rcases List.mem_map.mp hw with ⟨a, _, rfl⟩
  positivity

/-- Claim C8: for a `TextRNN` with `l2_reg_lambda ≥ 0`, multi-hot labels
(entries in [0, 1]) and a well-formed output projection, the logits have
shape `[batch, num_classes]`, the loss is exactly the elementwise sigmoid
cross-entropy summed over the class axis, averaged over the batch axis, plus
`l2_reg_lambda` times the L2 penalty on the output-projection parameters `W`
and `b`, and the loss is a non-negative scalar (finiteness is automatic in
the real-number model). -/
theorem C8_loss_shape_formula_nonneg (fw bw : List (List (List ℝ)))
    (W : List (List ℝ)) (b : List ℝ) (y : List (List ℝ))
    (l2_reg_lambda : ℝ) (B num_classes : ℕ)
    (hfw : fw.length = B) (hbw : bw.length = B)
    (hW : ∀ r ∈ W, r.length = num_classes)
    (hW0 : rowWidth W = num_classes) (hb : b.length = num_classes)
    (hy : ∀ row ∈ y, ∀ a ∈ row, 0 ≤ a ∧ a ≤ 1)
    (hlam : 0 ≤ l2_reg_lambda) :
    (textRNN_logits fw bw W b).length = B ∧
    (∀ r ∈ textRNN_logits fw bw W b, r.length = num_classes) ∧
    textRNN_loss y (textRNN_logits fw bw W b) l2_reg_lambda W b =
      meanL (textRNN_losses y (textRNN_logits fw bw W b)) +
        l2_reg_lambda * ((0 : ℝ) + l2LossM W + l2Loss b) ∧
    0 ≤ textRNN_loss y (textRNN_logits fw bw W b) l2_reg_lambda W b := by
  refine ⟨?_, ?_, rfl, ?_⟩
  · simp [textRNN_logits, xwPlusB, output_rnn_last, concatOutputs, hfw, hbw]
  · intro r hr
    rcases List.mem_map.mp hr with ⟨v, _, rfl⟩
    rw [List.length_zipWith, length_vecMat v W num_classes hW hW0, hb]
    simp
  · unfold textRNN_loss
    have h1 : 0 ≤ meanL (textRNN_losses y (textRNN_logits fw bw W b)) :=
      meanL_nonneg _ (textRNN_losses_nonneg y _ hy)
    have h2 : 0 ≤ l2LossM W := l2LossM_nonneg W
    have h3 : 0 ≤ l2Loss b := l2Loss_nonneg b
    have h4 : 0 ≤ l2_reg_lambda * ((0 : ℝ) + l2LossM W + l2Loss b) :=
      mul_nonneg hlam (by linarith)
    linarith

/-- Witness for claim C8 at batch 1, one class, one hidden unit per
direction, label 1 and zero regularization weight. -/
theorem C8_loss_shape_formula_nonneg_witness :
    ([[[(1 : ℝ)]]].length = 1 ∧ [[[(2 : ℝ)]]].length = 1 ∧
      (∀ r ∈ [[(1 : ℝ)], [(1 : ℝ)]], r.length = 1) ∧
      rowWidth [[(1 : ℝ)], [(1 : ℝ)]] = 1 ∧ [(0 : ℝ)].length = 1 ∧
      (∀ row ∈ [[(1 : ℝ)]], ∀ a ∈ row, 0 ≤ a ∧ a ≤ 1) ∧
      (0 : ℝ) ≤ 0) ∧
    0 ≤ textRNN_loss [[(1 : ℝ)]]
      (textRNN_logits [[[(1 : ℝ)]]] [[[(2 : ℝ)]]] [[(1 : ℝ)], [(1 : ℝ)]]
        [(0 : ℝ)]) 0 [[(1 : ℝ)], [(1 : ℝ)]] [(0 : ℝ)] := by
  have hy : ∀ row ∈ [[(1 : ℝ)]], ∀ a ∈ row, 0 ≤ a ∧ a ≤ 1 := by
    intro row hrow a ha
    rw [List.mem_singleton] at hrow
    subst hrow
    rw [List.mem_singleton] at ha
    subst ha
    norm_num
  exact ⟨⟨rfl, rfl, by decide, rfl, rfl, hy, le_refl 0⟩,
    (C8_loss_shape_formula_nonneg [[[(1 : ℝ)]]] [[[(2 : ℝ)]]]
      [[(1 : ℝ)], [(1 : ℝ)]] [(0 : ℝ)] [[(1 : ℝ)]] 0 1 1 rfl rfl
      (by decide) rfl rfl hy (le_refl 0)).2.2.2⟩

/-- Witness for claim C5 at `num_units = 1`, input width 1, batch 1. -/
theorem C5_width_invariants_witness :
    (0 < 1 ∧ (∀ r ∈ [[(1 : ℝ), 1, 1, 1]], r.length = 4 * 1) ∧
      rowWidth [[(1 : ℝ), 1, 1, 1]] = 4 * 1 ∧
      [[(1 : ℝ), 1, 1, 1]].length = 1 ∧
      ([(0 : ℝ), 0, 0, 0] : List ℝ).length = 4 * 1 ∧
      (∀ r ∈ [[(5 : ℝ)]], r.length = 1) ∧
      (∀ r ∈ [[(0 : ℝ)]], r.length = 1)) ∧
    (∀ r ∈ (BatchNormLSTMCell_call false 1 (fun t => t)
        [[(1 : ℝ), 1, 1, 1]] [[(1 : ℝ), 1, 1, 1]] [(0 : ℝ), 0, 0, 0]
        (BNVars.mk [1] [0] [0] [1]) (BNVars.mk [1] [0] [0] [1])
        (BNVars.mk [1] [0] [0] [1]) [[(5 : ℝ)]]
        ([[(0 : ℝ)]], [[(0 : ℝ)]])).1, r.length = 1) :=
  ⟨⟨by decide, by decide, rfl, rfl, by decide, by decide, by decide⟩,
    (C5_width_invariants false 1 (fun t => t) [[(1 : ℝ), 1, 1, 1]]
      [[(1 : ℝ), 1, 1, 1]] [(0 : ℝ), 0, 0, 0] (BNVars.mk [1] [0] [0] [1])
      (BNVars.mk [1] [0] [0] [1]) (BNVars.mk [1] [0] [0] [1]) [[(5 : ℝ)]]
      [[(0 : ℝ)]] [[(0 : ℝ)]] 1 1 _ _ (by decide) (by decide) rfl rfl
      (by decide) rfl (by decide) (by decide) (by decide) (by decide) rfl
      rfl).1⟩

/-- Witness for claim C1 at `num_units = 1`, input width 1, batch 1: the
per-step output coincides with the hidden half of the returned state. -/
theorem C1_cell_equations_witness :
    ((∀ r ∈ [[(1 : ℝ), 1, 1, 1]], r.length = 4 * 1) ∧
      rowWidth [[(1 : ℝ), 1, 1, 1]] = 4 * 1 ∧
      ([(0 : ℝ), 0, 0, 0] : List ℝ).length = 4 * 1) ∧
    (BatchNormLSTMCell_call false 1 (fun t => t) [[(1 : ℝ), 1, 1, 1]]
        [[(1 : ℝ), 1, 1, 1]] [(0 : ℝ), 0, 0, 0] (BNVars.mk [1] [0] [0] [1])
        (BNVars.mk [1] [0] [0] [1]) (BNVars.mk [1] [0] [0] [1]) [[(5 : ℝ)]]
        ([[(0 : ℝ)]], [[(0 : ℝ)]])).2.1.2 =
      (BatchNormLSTMCell_call false 1 (fun t => t) [[(1 : ℝ), 1, 1, 1]]
        [[(1 : ℝ), 1, 1, 1]] [(0 : ℝ), 0, 0, 0] (BNVars.mk [1] [0] [0] [1])
        (BNVars.mk [1] [0] [0] [1]) (BNVars.mk [1] [0] [0] [1]) [[(5 : ℝ)]]
        ([[(0 : ℝ)]], [[(0 : ℝ)]])).1 :=
  ⟨⟨by decide, rfl, by decide⟩,
    (C1_cell_equations false 1 (fun t => t) [[(1 : ℝ), 1, 1, 1]]
      [[(1 : ℝ), 1, 1, 1]] [(0 : ℝ), 0, 0, 0] (BNVars.mk [1] [0] [0] [1])
      (BNVars.mk [1] [0] [0] [1]) (BNVars.mk [1] [0] [0] [1]) [[(5 : ℝ)]]
      [[(0 : ℝ)]] [[(0 : ℝ)]] 1 _ _ (by decide) rfl (by decide) rfl
      (by decide) rfl rfl).2.2⟩

end TextRnnSpec
